import Mathlib

/-!
Verification of the PDF text-extraction browser extension.

The development shallowly embeds the extraction engine of the repository:
the record type produced by every extraction path, the word-counting and
truncation logic of the library extraction path (`extractPDF` in the
offscreen document and the ArrayBuffer variant in the content script),
the DOM strategy chain of `extractFromChromePDFViewer`, the fallback
extractor, the auto-extraction retry loop `attemptAutoExtraction`, the
offscreen-document lifecycle `setupOffscreenDocument`, and the background
message dispatcher.

Text is modelled as `List Char`.  Platform built-ins that the source
calls (the WHATWG URL parser and `decodeURIComponent`) are modelled as
simplified total functions, documented at their definitions.
-/

/-- The ExtractedDocument record (interface `PDFContent` in every source file).
The optional `fileSize` field is never set by any modelled path and is omitted. -/
structure PDFContent where
  title : List Char
  url : List Char
  textContent : List Char
  wordCount : Nat
  pageCount : Nat
deriving DecidableEq

/-- Whitespace test mirroring the regex class `\s` of the source, restricted to
the ASCII whitespace characters (the inputs of every claim are ASCII). -/
def isWS (c : Char) : Bool :=
  c = ' ' || c = '\n' || c = '\t' || c = '\r' || c = '\x0b' || c = '\x0c'

/-- State-machine core of `countWords`: the Bool records whether the scanner is
inside a run of non-whitespace characters. -/
def countWordsAux : Bool → List Char → Nat
  | _, [] => 0
  | inWord, c :: cs =>
    if isWS c then countWordsAux false cs
    else if inWord then countWordsAux true cs
    else 1 + countWordsAux true cs

/-- `countWords` from the source: `text.split(/\s+/).filter(word => word.length > 0).length`,
i.e. the number of maximal runs of non-whitespace characters. -/
def countWords (l : List Char) : Nat := countWordsAux false l

/-- `bodyText.replace(/\s+/g, ' ')`: each maximal whitespace run becomes one space. -/
def squashWS (l : List Char) : List Char :=
  l.foldr
    (fun c acc =>
      if isWS c then
        match acc with
        | ' ' :: _ => acc
        | _ => ' ' :: acc
      else c :: acc)
    []

/-- `.trim()` of the source, applied after `squashWS`. -/
def trimChars (l : List Char) : List Char :=
  ((l.dropWhile isWS).reverse.dropWhile isWS).reverse

/-- Value of a hexadecimal digit, used by the percent-decoder model. -/
def hexVal (c : Char) : Option Nat :=
  if '0' ≤ c ∧ c ≤ '9' then some (c.toNat - 48)
  else if 'A' ≤ c ∧ c ≤ 'F' then some (c.toNat - 55)
  else if 'a' ≤ c ∧ c ≤ 'f' then some (c.toNat - 87)
  else none

/-- Modelled from the spec: the platform built-in `decodeURIComponent`
(an external collaborator, not repository code), restricted to single-byte
ASCII escapes; a malformed or non-ASCII escape is a decode failure (`none`),
which the source catches as a thrown `URIError`. -/
def decodeURIComponentModel : List Char → Option (List Char)
  | [] => some []
  | '%' :: c1 :: c2 :: rest =>
    match hexVal c1, hexVal c2 with
    | some a, some b =>
      if 16 * a + b < 128 then
        (decodeURIComponentModel rest).map (fun t => Char.ofNat (16 * a + b) :: t)
      else none
    | _, _ => none
  | '%' :: _ => none
  | c :: rest => (decodeURIComponentModel rest).map (fun t => c :: t)

/-- Helper for the URL model: the remainder of the string after the first
scheme separator, or `none` when the string has no scheme separator. -/
def afterSchemeSep : List Char → Option (List Char)
  | [] => none
  | c :: rest =>
    if (("://").toList).isPrefixOf (c :: rest) then some ((c :: rest).drop 3)
    else afterSchemeSep rest

/-- Modelled from the spec: the platform built-in URL parser (an external
collaborator, not repository code).  `new URL(url).pathname` for a
`scheme://host/path` locator: the part from the first slash after the host
up to any query or fragment; `/` when the host has no path; `none` (a thrown
`TypeError` in the source, caught by the callers) when there is no scheme. -/
def urlPathname (url : List Char) : Option (List Char) :=
  match afterSchemeSep url with
  | none => none
  | some rest =>
    let beforeQuery := rest.takeWhile (fun c => c != '?' && c != '#')
    let path := beforeQuery.dropWhile (fun c => c != '/')
    if path = [] then some ['/'] else some path

/-- `s.replace(pat, repl)` of the source: replace the first occurrence of
`pat` (and only it), or return the string unchanged when `pat` does not occur. -/
def replaceFirst (pat repl : List Char) : List Char → List Char
  | [] => []
  | c :: rest =>
    if pat.isPrefixOf (c :: rest) then repl ++ (c :: rest).drop pat.length
    else c :: replaceFirst pat repl rest

/-- The fixed default title label of the source. -/
def defaultTitle : List Char := ("PDF Document").toList

/-- The literal `.pdf` passed to `replace` by both title functions. -/
def pdfExt : List Char := (".pdf").toList

/-- `extractTitleFromURL` of the content script (part_000 lines 634-646):
last path segment, first `.pdf` occurrence removed, then percent-decoded;
the default label on a parse or decode failure or an empty result. -/
def extractTitleFromURL (url : List Char) : List Char :=
  match urlPathname url with
  | none => defaultTitle
  | some p =>
    let fileName := ((p.splitOn '/').getLast?).getD []
    match decodeURIComponentModel (replaceFirst pdfExt [] fileName) with
    | none => defaultTitle
    | some t => if t = [] then defaultTitle else t

/-- `extractTitleFromURL` of the offscreen document (offscreen.ts lines 84-92)
and of content.ts lines 239-247: identical to the content-script variant except
that an empty result is returned as is, not replaced by the default label. -/
def extractTitleFromURLOffscreen (url : List Char) : List Char :=
  match urlPathname url with
  | none => defaultTitle
  | some p =>
    let fileName := ((p.splitOn '/').getLast?).getD []
    match decodeURIComponentModel (replaceFirst pdfExt [] fileName) with
    | none => defaultTitle
    | some t => t

/-- Modelled from the spec, for comparison with the source functions:
title derivation exactly as the spec words it - last path segment,
percent-decode, strip a trailing `.pdf` suffix, the default label on any
parse failure or empty result. -/
def specTitleDerivation (url : List Char) : List Char :=
  match urlPathname url with
  | none => defaultTitle
  | some p =>
    let fileName := ((p.splitOn '/').getLast?).getD []
    match decodeURIComponentModel fileName with
    | none => defaultTitle
    | some d =>
      let stripped := if pdfExt.isSuffixOf d then d.take (d.length - 4) else d
      if stripped = [] then defaultTitle else stripped

/-- One page handed over by the parsing library: `textContent.items.map(item => item.str)`.
`pageText` is the fragments joined with single-space separators (`join(' ')`). -/
def pageTextOf (items : List (List Char)) : List Char :=
  List.intercalate ((" ").toList) items

/-- The accumulated `fullText` of the library extraction path:
`fullText += pageText + '\n\n'` over all pages in index order. -/
def fullTextOf (pages : List (List (List Char))) : List Char :=
  pages.foldl (fun acc items => acc ++ pageTextOf items ++ ("\n\n").toList) []

/-- `extractPDF` of the offscreen document (offscreen.ts lines 43-82), which is
also the computation of `extractUsingPDFJSWithArrayBuffer` in content.ts
(lines 155-193): a document is its list of pages (each a list of text
fragments), `pageCount` is the number of pages, the text is truncated to
50000 characters, and `wordCount` is `countWords(fullText)` computed on the
variable `fullText`, before the truncation. -/
def extractPDF (url : List Char) (pages : List (List (List Char))) : PDFContent :=
  { title := extractTitleFromURLOffscreen url
    url := url
    textContent := (fullTextOf pages).take 50000
    wordCount := countWords (fullTextOf pages)
    pageCount := pages.length }

/-- Outcome of one strategy-chain method: the method either throws or returns
a string (`''` modelling no result). -/
inductive MethodOutcome
  | throws
  | returns (text : List Char)
deriving DecidableEq

/-- Whether a method outcome clears the 50-character threshold of the chain. -/
def clearsThreshold : MethodOutcome → Bool
  | MethodOutcome.throws => false
  | MethodOutcome.returns t => decide (50 < t.length)

/-- The strategy-chain loop of `extractFromChromePDFViewer` (part_000 lines
285-305): try methods in order, catch a throwing method and continue, stop at
the first result longer than 50 characters.  Returns the chosen text (if any)
and the number of methods invoked. -/
def runChainCount : List MethodOutcome → Option (List Char) × Nat
  | [] => (none, 0)
  | MethodOutcome.throws :: rest =>
    let r := runChainCount rest
    (r.1, r.2 + 1)
  | MethodOutcome.returns t :: rest =>
    if 50 < t.length then (some t, 1)
    else
      let r := runChainCount rest
      (r.1, r.2 + 1)

/-- Insert a throwing method at position `i` of a chain (at the end when `i`
is past the end). -/
def injectAt (i : Nat) (ms : List MethodOutcome) : List MethodOutcome :=
  ms.take i ++ MethodOutcome.throws :: ms.drop i

/-- The observable DOM state consumed by `extractFromChromePDFViewer`:
the outcome of each chain method, the four page-count indicator values of
`estimatePageCount` in their order, and the quantities interpolated into the
diagnostic report. -/
structure DomEnv where
  url : List Char
  methods : List MethodOutcome
  pageIndicators : List Nat
  embedFound : Bool
  textLayerCount : Nat
  pageElementCount : Nat
  readyState : List Char
  bodyTextLength : Nat

/-- `estimatePageCount` (part_000 lines 517-536): the first positive indicator
wins, default 1. -/
def estimatePageCount (indicators : List Nat) : Nat :=
  match indicators.find? (fun c => decide (0 < c)) with
  | some c => c
  | none => 1

/-- `generateExtractionReport` (part_000 lines 538-556): the diagnostic
placeholder text. -/
def generateExtractionReport (e : DomEnv) : List Char :=
  ("PDF Document Analysis:\n- Embed element found: ").toList
  ++ (if e.embedFound then ("Yes").toList else ("No").toList)
  ++ ("\n- Text layers detected: ").toList ++ (toString e.textLayerCount).toList
  ++ ("\n- Page elements found: ").toList ++ (toString e.pageElementCount).toList
  ++ ("\n- Document ready state: ").toList ++ e.readyState
  ++ ("\n- Body text length: ").toList ++ (toString e.bodyTextLength).toList
  ++ ("\n\nThis PDF might be:\n1. A scanned document without text layer\n2. Still loading in Chrome\x27s PDF viewer\n3. Protected or encrypted content\n\nTry refreshing the page or opening a different PDF file.").toList

/-- `extractFromChromePDFViewer` (part_000 lines 254-345): run the chain; when
the resulting text is missing or shorter than 20 characters substitute the
diagnostic report; truncate the text to 10000 characters; `wordCount` is
computed on the variable `textContent` before the truncation; the estimated
page count is normalized by `pageCount || 1`. -/
def extractFromChromePDFViewer (e : DomEnv) : PDFContent :=
  let textContent0 := ((runChainCount e.methods).1).getD []
  let textContent :=
    if textContent0.length < 20 then generateExtractionReport e else textContent0
  let pc := estimatePageCount e.pageIndicators
  { title := extractTitleFromURL e.url
    url := e.url
    textContent := textContent.take 10000
    wordCount := countWords textContent
    pageCount := if pc = 0 then 1 else pc }

/-- The fixed fallback string of `extractFallbackText`. -/
def noTextMsg : List Char := ("No text could be extracted from this PDF.").toList

/-- `extractFallbackText` (part_000 lines 600-615): collapse the body text
whitespace, trim, truncate to 1000 characters, and substitute the fixed
message when the truncation is empty (`substring(0, 1000) || message`);
`wordCount` is computed on the untruncated `cleanText`. -/
def extractFallbackText (url bodyText : List Char) : PDFContent :=
  let cleanText := trimChars (squashWS bodyText)
  let truncated := cleanText.take 1000
  { title := extractTitleFromURL url
    url := url
    textContent := if truncated = [] then noTextMsg else truncated
    wordCount := countWords cleanText
    pageCount := 1 }

/-- The placeholder record sent by `attemptAutoExtraction` after its retries
are exhausted by extraction exceptions (part_000 lines 724-733). -/
def autoPlaceholder (url : List Char) : PDFContent :=
  { title := ("PDF Document").toList
    url := url
    textContent := ("Failed to extract PDF content automatically.").toList
    wordCount := 0
    pageCount := 0 }

/-- Outcome of one `extractPDFContent()` call inside the retry loop: either
the promise rejects or it resolves with a record. -/
inductive ExtractStep
  | throws
  | ok (c : PDFContent)

/-- Core of `attemptAutoExtraction` (part_000 lines 697-737).  The list holds
the remaining attempt indices (`retryCount` values); the code recurses while
`retryCount < maxRetries`, so the run is `autoRunGo` on `[0, 1, 2, 3]`.
At attempt `k`: a successful extraction is passed to `safelySendMessage`
(recorded with its delivery flag `sendOk k`); on delivery failure the loop
retries unless `k` is the last index, where the failure is only logged.
An extraction exception retries unless `k` is the last index, where the one
placeholder send is attempted.  The second component counts the extraction
attempts performed. -/
def autoRunGo (extract : Nat → ExtractStep) (sendOk : Nat → Bool) (url : List Char) :
    List Nat → List (PDFContent × Bool) × Nat
  | [] => ([], 0)
  | [k] =>
    (match extract k with
     | ExtractStep.ok c => ([(c, sendOk k)], 1)
     | ExtractStep.throws => ([(autoPlaceholder url, sendOk k)], 1))
  | k :: k2 :: ks =>
    match extract k with
    | ExtractStep.ok c =>
      if sendOk k then ([(c, true)], 1)
      else
        let rest := autoRunGo extract sendOk url (k2 :: ks)
        ((c, false) :: rest.1, rest.2 + 1)
    | ExtractStep.throws =>
      let rest := autoRunGo extract sendOk url (k2 :: ks)
      (rest.1, rest.2 + 1)

/-- The attempt indices of the loop: the first attempt and `maxRetries = 3`
retries. -/
def retrySchedule : List Nat := [0, 1, 2, 3]

/-- `attemptAutoExtraction`: the full retry loop, returning the messages
passed to `safelySendMessage` (paired with their delivery results) and the
number of extraction attempts. -/
def attemptAutoExtraction (extract : Nat → ExtractStep) (sendOk : Nat → Bool)
    (url : List Char) : List (PDFContent × Bool) × Nat :=
  autoRunGo extract sendOk url retrySchedule

/-- The messages actually delivered to the background script: the sends whose
channel reported success. -/
def deliveredMessages (sends : List (PDFContent × Bool)) : List PDFContent :=
  (sends.filter (fun p => p.2)).map (fun p => p.1)

/-- The backoff delay before attempt `k`:
`Math.min(2000 * Math.pow(2, retryCount), 10000)` (part_000 line 699). -/
def retryDelay (k : Nat) : Nat := min (2000 * 2 ^ k) 10000

/-- The module-level state of the offscreen lifecycle in background.ts:
the `offscreenDocumentCreated` flag, whether the `creating` promise slot is
occupied, and (for the specification) how many platform creation calls have
been issued. -/
structure OffscreenState where
  offscreenDocumentCreated : Bool
  creating : Bool
  creationCalls : Nat
deriving DecidableEq

/-- The initial module state of background.ts lines 16-17. -/
def offscreenInit : OffscreenState := ⟨false, false, 0⟩

/-- Atomic steps of `setupOffscreenDocument` (background.ts lines 19-48) and
its environment.  `ensure` is the synchronous span of one call from entry to
its first suspension: return if the flag is set, else await the shared
`creating` promise if occupied, else store the promise and issue the platform
creation call.  `complete b` is the creation call settling (`b` true on
success, false on the already-exists failure); both branches set the flag.
`clear` is the first caller resuming after completion and writing
`creating = null`. -/
inductive OffscreenEvent
  | ensure
  | complete (ok : Bool)
  | clear
deriving DecidableEq

/-- The transition function of the lifecycle state machine. -/
def offscreenStep (s : OffscreenState) : OffscreenEvent → OffscreenState
  | OffscreenEvent.ensure =>
    if s.offscreenDocumentCreated then s
    else if s.creating then s
    else { s with creating := true, creationCalls := s.creationCalls + 1 }
  | OffscreenEvent.complete _ =>
    if s.creating then { s with offscreenDocumentCreated := true } else s
  | OffscreenEvent.clear =>
    if s.offscreenDocumentCreated then { s with creating := false } else s

/-- An interleaving of `ensure` calls and environment steps, run from the
initial state. -/
def offscreenRun (tr : List OffscreenEvent) : OffscreenState :=
  tr.foldl offscreenStep offscreenInit

/-- Invariant of the lifecycle machine: at most one creation call, issued
exactly when the machine has left the absent state. -/
def MgrInv (s : OffscreenState) : Prop :=
  s.creationCalls ≤ 1 ∧
    (s.creationCalls = 1 ↔ (s.creating = true ∨ s.offscreenDocumentCreated = true))

/-- The machine has left the absent state. -/
def mgrActive (s : OffscreenState) : Prop :=
  s.creating = true ∨ s.offscreenDocumentCreated = true

/-- A message arriving at the background dispatcher (background.ts lines
68-124). -/
structure BgMessage where
  action : List Char
  data : Option PDFContent
  url : Option (List Char)

/-- The object passed to `sendResponse`. -/
structure BgResponse where
  success : Bool
  data : Option PDFContent
  error : Option (List Char)
deriving DecidableEq

/-- How the dispatcher answers a message: a synchronous response, a kept-open
channel awaiting an asynchronous response, or no response at all (listener
returned false without responding). -/
inductive BgReply
  | sync (r : BgResponse)
  | pending
  | noReply
deriving DecidableEq

/-- The switch of the background message listener: the new cache value
(`currentPDFContent`) and the reply behaviour for each action. -/
def bgOnMessage (cache : Option PDFContent) (m : BgMessage) :
    Option PDFContent × BgReply :=
  if m.action = ("extractPDFFromBackground").toList then
    match m.url with
    | some _ => (cache, BgReply.pending)
    | none => (cache, BgReply.noReply)
  else if m.action = ("extractPDFInViewer").toList then
    match m.url with
    | some _ => (cache, BgReply.pending)
    | none => (cache, BgReply.noReply)
  else if m.action = ("contentReady").toList then
    match m.data with
    | some d => (some d, BgReply.sync ⟨true, none, none⟩)
    | none => (cache, BgReply.sync ⟨true, none, none⟩)
  else if m.action = ("getPageContent").toList then
    match cache with
    | some c => (cache, BgReply.sync ⟨true, some c, none⟩)
    | none => (cache, BgReply.pending)
  else if m.action = ("requestContent").toList then
    (cache, BgReply.pending)
  else
    (cache, BgReply.sync ⟨false, none, some (("Unknown action").toList)⟩)

/-- A long page text used to exhibit truncation: `rep n` is `n` repetitions of
the word `a` followed by a space. -/
def rep : Nat → List Char
  | 0 => []
  | n + 1 => 'a' :: ' ' :: rep n

/-- A 60-character method result. -/
def t60 : List Char := List.replicate 60 'x'

/-- A concrete locator used by several concrete instances. -/
def urlC1 : List Char := ("https://x/doc.pdf").toList

/-- A concrete well-formed extraction record used by the retry-loop instances. -/
def c3doc : PDFContent :=
  { title := ("doc").toList
    url := urlC1
    textContent := ("hello world").toList
    wordCount := 2
    pageCount := 1 }

theorem isWS_a : isWS 'a' = false := rfl

theorem isWS_space : isWS ' ' = true := rfl

theorem isWS_nl : isWS '\n' = true := rfl

theorem runChainCount_fst_injectAt : ∀ (ms : List MethodOutcome) (i : Nat),
    (runChainCount (injectAt i ms)).1 = (runChainCount ms).1 := by
  intro ms
  induction ms with
  | nil =>
    intro i
    simp [injectAt, runChainCount]
  | cons m rest ih =>
    intro i
    cases i with
    | zero =>
      simp [injectAt, runChainCount]
    | succ j =>
      have hinj : injectAt (j + 1) (m :: rest) = m :: injectAt j rest := by
        simp [injectAt]
      rw [hinj]
      cases m with
      | throws => simp [runChainCount, ih j]
      | returns t =>
        by_cases h : 50 < t.length
        · simp [runChainCount, h]
        · simp [runChainCount, h, ih j]

theorem runChainCount_some_length : ∀ (ms : List MethodOutcome) (t : List Char),
    (runChainCount ms).1 = some t → 50 < t.length := by
  intro ms
  induction ms with
  | nil =>
    intro t h
    simp [runChainCount] at h
  | cons m rest ih =>
    intro t h
    cases m with
    | throws => exact ih t (by simpa [runChainCount] using h)
    | returns s =>
      by_cases hs : 50 < s.length
      · have hst : s = t := by simpa [runChainCount, hs] using h
        rw [← hst]
        exact hs
      · exact ih t (by simpa [runChainCount, hs] using h)

theorem generateExtractionReport_ne_nil (e : DomEnv) :
    generateExtractionReport e ≠ [] := by
  intro h
  simp only [generateExtractionReport, List.append_eq_nil] at h
  have h1 : ("PDF Document Analysis:\n- Embed element found: ").toList = ([] : List Char) := by
    tauto
  exact absurd h1 (by decide)

theorem take10000_ne_nil (l : List Char) (h : l ≠ []) : l.take 10000 ≠ [] := by
  cases l with
  | nil => exact absurd rfl h
  | cons c cs => simp

theorem generateExtractionReport_methods (e : DomEnv) (ms : List MethodOutcome) :
    generateExtractionReport { e with methods := ms } = generateExtractionReport e := rfl


/-- C6: the library extraction path processes pages sequentially in index
order, joins page fragments with single spaces and pages with blank lines;
for the 3-page document with page texts `A`, `B B`, `C C C` the record has
text `A\n\nB B\n\nC C C\n\n`, wordCount 6 and pageCount 3. -/
theorem C6_three_page_scenario :
    extractPDF urlC1
        [[("A").toList], [("B").toList, ("B").toList],
          [("C").toList, ("C").toList, ("C").toList]] =
      { title := ("doc").toList
        url := urlC1
        textContent := ("A\n\nB B\n\nC C C\n\n").toList
        wordCount := 6
        pageCount := 3 } := by
  decide

/-- C7: an exception inside any single strategy-chain method is caught and
treated as no result: a throwing method injected at any chain position leaves
the produced record unchanged, and the record's text is never empty (a later
method's output or the diagnostic placeholder), so the chain never ends in an
unhandled fault. -/
theorem C7_throwing_method_tolerated :
    ∀ (e : DomEnv) (i : Nat),
      extractFromChromePDFViewer { e with methods := injectAt i e.methods } =
        extractFromChromePDFViewer e ∧
      (extractFromChromePDFViewer e).textContent ≠ [] := by
  intro e i
  constructor
  · simp only [extractFromChromePDFViewer, runChainCount_fst_injectAt,
      generateExtractionReport_methods]
  · rcases hfst : (runChainCount e.methods).1 with _ | t
    · simp only [extractFromChromePDFViewer, hfst, Option.getD_none, List.length_nil]
      simp only [show (0 : Nat) < 20 by norm_num, if_pos]
      exact take10000_ne_nil _ (generateExtractionReport_ne_nil e)
    · have ht := runChainCount_some_length e.methods t hfst
      have h20 : ¬ (t.length < 20) := by omega
      simp only [extractFromChromePDFViewer, hfst, Option.getD_some, if_neg h20]
      apply take10000_ne_nil
      intro h0
      rw [h0] at ht
      simp at ht

/-- C8: the strategy chain stops at the first method whose result exceeds the
50-character threshold: with any run of non-clearing methods before it, that
method's text is returned and exactly the methods up to and including it are
invoked, so later methods are never invoked. -/
theorem C8_first_clearing_method :
    ∀ (ms : List MethodOutcome) (t : List Char) (rest : List MethodOutcome),
      (∀ m ∈ ms, clearsThreshold m = false) → 50 < t.length →
      runChainCount (ms ++ MethodOutcome.returns t :: rest) =
        (some t, ms.length + 1) := by
  intro ms
  induction ms with
  | nil =>
    intro t rest _ ht
    simp [runChainCount, ht]
  | cons m ms ih =>
    intro t rest hm ht
    have htail : ∀ m ∈ ms, clearsThreshold m = false := by
      intro x hx
      exact hm x (List.mem_cons_of_mem m hx)
    have hrec := ih t rest htail ht
    cases m with
    | throws =>
      simp [runChainCount, hrec]
    | returns s =>
      have hs : ¬ (50 < s.length) := by
        have := hm (MethodOutcome.returns s) (List.mem_cons_self _ _)
        simpa [clearsThreshold] using this
      simp [runChainCount, hs, hrec]

/-- Witness for C8: a 60-character result from the first method stops the
chain after one invocation; with one throwing method before it, after two. -/
theorem C8_first_clearing_method_witness :
    runChainCount [MethodOutcome.returns t60, MethodOutcome.returns (("y").toList)] =
      (some t60, 1) ∧
    runChainCount [MethodOutcome.throws, MethodOutcome.returns t60,
        MethodOutcome.returns (("y").toList)] =
      (some t60, 2) := by
  constructor
  · have h := C8_first_clearing_method [] t60 [MethodOutcome.returns (("y").toList)]
      (by simp) (by decide)
    simpa using h
  · have h := C8_first_clearing_method [MethodOutcome.throws] t60
      [MethodOutcome.returns (("y").toList)] (by simp [clearsThreshold]) (by decide)
    simpa using h

/-- C9: the three truncation ceilings hold exactly as in the source: the
DOM-scraping record's text is at most 10000 characters, the library-path
record's at most 50000 characters, and the raw-body fallback record's at most
1000 characters. -/
theorem C9_truncation_ceilings :
    ∀ (e : DomEnv) (url : List Char) (pages : List (List (List Char)))
      (bodyText : List Char),
      (extractFromChromePDFViewer e).textContent.length ≤ 10000 ∧
      (extractPDF url pages).textContent.length ≤ 50000 ∧
      (extractFallbackText url bodyText).textContent.length ≤ 1000 := by
  intro e url pages bodyText
  refine ⟨List.length_take_le _ _, List.length_take_le _ _, ?_⟩
  show (if (trimChars (squashWS bodyText)).take 1000 = [] then noTextMsg
        else (trimChars (squashWS bodyText)).take 1000).length ≤ 1000
  split
  · decide
  · exact List.length_take_le _ _

/-- C10: for every contentReady message, the background handler replies with
success true whether or not the message carries a data payload, and the cached
current document is overwritten exactly when a document is present. -/
theorem C10_contentReady_reply :
    ∀ (cache : Option PDFContent) (u : Option (List Char)) (d : PDFContent),
      bgOnMessage cache ⟨("contentReady").toList, none, u⟩ =
        (cache, BgReply.sync ⟨true, none, none⟩) ∧
      bgOnMessage cache ⟨("contentReady").toList, some d, u⟩ =
        (some d, BgReply.sync ⟨true, none, none⟩) := by
  intro cache u d
  constructor <;> rfl

/-- C4 counterexample: the source removes the first occurrence of `.pdf`
anywhere in the segment, not a trailing suffix: on
`https://x/a.pdfb.pdf` the code yields `ab.pdf`, while the spec's
algorithm (strip a trailing `.pdf` suffix) yields `a.pdfb`. -/
theorem C4_counterexample :
    extractTitleFromURL (("https://x/a.pdfb.pdf").toList) = ("ab.pdf").toList ∧
    specTitleDerivation (("https://x/a.pdfb.pdf").toList) = ("a.pdfb").toList ∧
    extractTitleFromURL (("https://x/a.pdfb.pdf").toList) ≠
      specTitleDerivation (("https://x/a.pdfb.pdf").toList) := by
  refine ⟨by decide, by decide, by decide⟩

/-- C4 as amended: title derivation is total; it removes the first `.pdf`
occurrence (not only a trailing suffix) from the last path segment and then
percent-decodes; the content-script variant returns the default label on a
parse failure, a decode failure or an empty result (so its result is never
empty), while the offscreen variant returns the empty string on an empty
result; `https://x/y/My%20Doc.pdf` yields `My Doc` in both variants. -/
theorem C4_title_derivation :
    (∀ url : List Char, extractTitleFromURL url ≠ []) ∧
    extractTitleFromURL (("https://x/y/My%20Doc.pdf").toList) = ("My Doc").toList ∧
    extractTitleFromURLOffscreen (("https://x/y/My%20Doc.pdf").toList) =
      ("My Doc").toList ∧
    extractTitleFromURL (("notaurl").toList) = defaultTitle ∧
    extractTitleFromURL (("https://x/a%Zq.pdf").toList) = defaultTitle ∧
    extractTitleFromURLOffscreen (("https://x/").toList) = [] := by
  refine ⟨?_, by decide, by decide, by decide, by decide, by decide⟩
  intro url
  unfold extractTitleFromURL
  rcases h : urlPathname url with _ | p
  · decide
  · rcases h2 : decodeURIComponentModel
        (replaceFirst pdfExt [] (((p.splitOn '/').getLast?).getD [])) with _ | t
    · simp only [h2]
      decide
    · simp only [h2]
      split
      next => decide
      next h3 => exact h3

/-- C2 counterexample: the placeholder record sent by the auto-extraction
retry loop after exhausted retries carries pageCount 0, so not every produced
record has pageCount at least 1. -/
theorem C2_counterexample : (autoPlaceholder urlC1).pageCount = 0 := rfl

/-- C2 as amended: the DOM-scraping chain normalizes a zero page estimate to 1
and the fallback extractor fixes pageCount at 1, but the retry-exhaustion
placeholder leaves the producer with pageCount 0. -/
theorem C2_pageCount_normalization :
    ∀ (e : DomEnv) (url bodyText : List Char),
      1 ≤ (extractFromChromePDFViewer e).pageCount ∧
      (extractFallbackText url bodyText).pageCount = 1 ∧
      (autoPlaceholder url).pageCount = 0 := by
  intro e url bodyText
  refine ⟨?_, rfl, rfl⟩
  show 1 ≤ (if estimatePageCount e.pageIndicators = 0 then 1
            else estimatePageCount e.pageIndicators)
  split
  next => exact le_refl 1
  next h => omega

theorem countWordsAux_rep : ∀ (n : Nat) (tail : List Char),
    countWordsAux false (rep n ++ tail) = n + countWordsAux false tail := by
  intro n
  induction n with
  | zero =>
    intro tail
    simp [rep]
  | succ m ih =>
    intro tail
    simp only [rep, List.cons_append]
    simp [countWordsAux, isWS_a, isWS_space, ih tail]
    omega

theorem rep_length (n : Nat) : (rep n).length = 2 * n := by
  induction n with
  | zero => simp [rep]
  | succ m ih =>
    simp [rep, ih]
    omega

theorem rep_take : ∀ (k n : Nat), k ≤ n → (rep n).take (2 * k) = rep k := by
  intro k
  induction k with
  | zero =>
    intro n _
    simp [rep]
  | succ j ih =>
    intro n h
    cases n with
    | zero => omega
    | succ m =>
      have h2 : 2 * (j + 1) = 2 * j + 1 + 1 := by ring
      rw [h2]
      simp only [rep, List.take_succ_cons]
      rw [ih m (by omega)]

theorem fullTextOf_single (p : List (List Char)) :
    fullTextOf [p] = pageTextOf p ++ ("\n\n").toList := by
  simp [fullTextOf]

theorem pageTextOf_single (x : List Char) : pageTextOf [x] = x := by
  simp [pageTextOf, List.intercalate]

/-- C1 counterexample: on a one-page document whose text is 25001 words of
50002 characters, the library path stores a 50000-character truncation whose
whitespace-token count is 25000, but reports wordCount 25001 - the token count
of the longer pre-truncation string. -/
theorem C1_counterexample :
    (extractPDF urlC1 [[rep 25001]]).wordCount = 25001 ∧
    countWords ((extractPDF urlC1 [[rep 25001]]).textContent) = 25000 := by
  have hfull : fullTextOf [[rep 25001]] = rep 25001 ++ ("\n\n").toList := by
    rw [fullTextOf_single, pageTextOf_single]
  have hnl : countWordsAux false (("\n\n").toList) = 0 := by decide
  constructor
  · show countWords (fullTextOf [[rep 25001]]) = 25001
    rw [hfull, countWords, countWordsAux_rep, hnl]
  · show countWords ((fullTextOf [[rep 25001]]).take 50000) = 25000
    have htake : (fullTextOf [[rep 25001]]).take 50000 = rep 25000 := by
      rw [hfull, List.take_append_eq_append_take, rep_length]
      norm_num
      rw [show (50000 : Nat) = 2 * 25000 by norm_num]
      exact rep_take 25000 25001 (by norm_num)
    rw [htake, countWords]
    have := countWordsAux_rep 25000 []
    simpa using this

/-- C1 as amended: in the library extraction path wordCount equals the
whitespace-token count of the pre-truncation concatenated text; it equals the
token count of the final truncated text only when that text fits within the
50000-character ceiling. -/
theorem C1_wordCount_pre_truncation :
    ∀ (url : List Char) (pages : List (List (List Char))),
      (extractPDF url pages).wordCount = countWords (fullTextOf pages) ∧
      ((fullTextOf pages).length ≤ 50000 →
        countWords ((extractPDF url pages).textContent) =
          (extractPDF url pages).wordCount) := by
  intro url pages
  refine ⟨rfl, fun h => ?_⟩
  show countWords ((fullTextOf pages).take 50000) = countWords (fullTextOf pages)
  rw [List.take_of_length_le h]

/-- Witness for C1 as amended, at a one-page document with page text `A`. -/
theorem C1_wordCount_pre_truncation_witness :
    (fullTextOf [[("A").toList]]).length ≤ 50000 ∧
    countWords ((extractPDF urlC1 [[("A").toList]]).textContent) =
      (extractPDF urlC1 [[("A").toList]]).wordCount :=
  ⟨by decide, (C1_wordCount_pre_truncation urlC1 [[("A").toList]]).2 (by decide)⟩

theorem autoRunGo_attempts_le (extract : Nat → ExtractStep) (sendOk : Nat → Bool)
    (url : List Char) : ∀ ks : List Nat,
    (autoRunGo extract sendOk url ks).2 ≤ ks.length := by
  intro ks
  induction ks with
  | nil => simp [autoRunGo]
  | cons k ks ih =>
    cases ks with
    | nil =>
      cases h : extract k <;> simp [autoRunGo, h]
    | cons k2 ks2 =>
      have hih := ih
      simp only [List.length_cons] at hih
      cases h : extract k with
      | throws =>
        simp only [autoRunGo, h, List.length_cons]
        omega
      | ok c =>
        cases hs : sendOk k with
        | true =>
          simp [autoRunGo, h, hs]
        | false =>
          simp only [autoRunGo, h, hs, Bool.false_eq_true, if_false, List.length_cons]
          omega

/-- C3 counterexample: a run in which extraction succeeds on every attempt but
the channel send fails on all 4 attempts delivers nothing and never even
attempts a placeholder send - the loop ends in silence, not in exactly one
placeholder record. -/
theorem C3_counterexample :
    attemptAutoExtraction (fun _ => ExtractStep.ok c3doc) (fun _ => false) urlC1 =
      ([(c3doc, false), (c3doc, false), (c3doc, false), (c3doc, false)], 4) ∧
    deliveredMessages
      (attemptAutoExtraction (fun _ => ExtractStep.ok c3doc) (fun _ => false) urlC1).1 = [] ∧
    (∀ b : Bool,
      (autoPlaceholder urlC1, b) ∉
        (attemptAutoExtraction (fun _ => ExtractStep.ok c3doc) (fun _ => false) urlC1).1) := by
  refine ⟨by decide, by decide, ?_⟩
  intro b
  cases b <;> decide

/-- C3 as amended: the loop performs at most 3 retries after the first attempt
with backoff delay min(2000 * 2^k, 10000) before attempt k; a run whose
channel send fails 3 times then succeeds delivers the successful result; a run
in which extraction throws on all 4 attempts attempts exactly one placeholder
send (wordCount 0, pageCount 0), delivered only if that final send succeeds;
but a run in which extraction succeeds and the channel fails on all 4 attempts
delivers nothing and sends no placeholder. -/
theorem C3_retry_behavior :
    (∀ k, retryDelay k = min (2000 * 2 ^ k) 10000) ∧
    (∀ k, 3 ≤ k → retryDelay k = 10000) ∧
    (∀ (extract : Nat → ExtractStep) (sendOk : Nat → Bool) (url : List Char),
      (attemptAutoExtraction extract sendOk url).2 ≤ 4) ∧
    (∀ (extract : Nat → ExtractStep) (sendOk : Nat → Bool) (url : List Char)
      (c : PDFContent),
      (∀ k, extract k = ExtractStep.ok c) →
      sendOk 0 = false → sendOk 1 = false → sendOk 2 = false → sendOk 3 = true →
      deliveredMessages (attemptAutoExtraction extract sendOk url).1 = [c] ∧
      (attemptAutoExtraction extract sendOk url).2 = 4) ∧
    (∀ (extract : Nat → ExtractStep) (sendOk : Nat → Bool) (url : List Char),
      (∀ k, extract k = ExtractStep.throws) →
      (attemptAutoExtraction extract sendOk url).1 =
        [(autoPlaceholder url, sendOk 3)]) ∧
    (∀ (extract : Nat → ExtractStep) (sendOk : Nat → Bool) (url : List Char)
      (c : PDFContent),
      (∀ k, extract k = ExtractStep.ok c) → (∀ k, sendOk k = false) →
      deliveredMessages (attemptAutoExtraction extract sendOk url).1 = []) ∧
    (∀ url, (autoPlaceholder url).wordCount = 0 ∧ (autoPlaceholder url).pageCount = 0) := by
  refine ⟨fun _ => rfl, ?_, ?_, ?_, ?_, ?_, fun _ => ⟨rfl, rfl⟩⟩
  · intro k hk
    have h8 : (8 : Nat) ≤ 2 ^ k := by
      calc (8 : Nat) = 2 ^ 3 := by norm_num
      _ ≤ 2 ^ k := Nat.pow_le_pow_right (by norm_num) hk
    have hm : (10000 : Nat) ≤ 2000 * 2 ^ k := by nlinarith
    simp [retryDelay, Nat.min_eq_right hm]
  · intro extract sendOk url
    have h := autoRunGo_attempts_le extract sendOk url retrySchedule
    simpa [attemptAutoExtraction, retrySchedule] using h
  · intro extract sendOk url c hx h0 h1 h2 h3
    constructor
    · simp [attemptAutoExtraction, retrySchedule, autoRunGo,
        hx 0, hx 1, hx 2, hx 3, h0, h1, h2, h3, deliveredMessages]
    · simp [attemptAutoExtraction, retrySchedule, autoRunGo,
        hx 0, hx 1, hx 2, hx 3, h0, h1, h2, h3]
  · intro extract sendOk url hx
    simp [attemptAutoExtraction, retrySchedule, autoRunGo, hx 0, hx 1, hx 2, hx 3]
  · intro extract sendOk url c hx hs
    simp [attemptAutoExtraction, retrySchedule, autoRunGo,
      hx 0, hx 1, hx 2, hx 3, hs 0, hs 1, hs 2, hs 3, deliveredMessages]

/-- Witness for C3 as amended: with extraction succeeding everywhere and a
channel that fails on attempts 0-2 and succeeds on attempt 3, the successful
record is delivered; and the delay cap holds at attempt 5. -/
theorem C3_retry_behavior_witness :
    deliveredMessages
      (attemptAutoExtraction (fun _ => ExtractStep.ok c3doc) (fun k => k == 3) urlC1).1 =
      [c3doc] ∧
    retryDelay 5 = 10000 :=
  ⟨(C3_retry_behavior.2.2.2.1 (fun _ => ExtractStep.ok c3doc) (fun k => k == 3) urlC1
      c3doc (fun _ => rfl) rfl rfl rfl rfl).1,
   C3_retry_behavior.2.1 5 (by norm_num)⟩

theorem offscreenStep_inv (s : OffscreenState) (e : OffscreenEvent) (h : MgrInv s) :
    MgrInv (offscreenStep s e) := by
  obtain ⟨c, r, n⟩ := s
  cases e <;> cases c <;> cases r <;>
    simp [MgrInv, offscreenStep] at h ⊢ <;> omega

theorem offscreenStep_active (s : OffscreenState) (e : OffscreenEvent)
    (h : mgrActive s) : mgrActive (offscreenStep s e) := by
  obtain ⟨c, r, n⟩ := s
  cases e <;> cases c <;> cases r <;>
    simp [mgrActive, offscreenStep] at h ⊢

theorem ensure_active (s : OffscreenState) :
    mgrActive (offscreenStep s OffscreenEvent.ensure) := by
  obtain ⟨c, r, n⟩ := s
  cases c <;> cases r <;> simp [mgrActive, offscreenStep]

theorem offscreenFoldl_inv : ∀ (tr : List OffscreenEvent) (s : OffscreenState),
    MgrInv s → MgrInv (tr.foldl offscreenStep s) := by
  intro tr
  induction tr with
  | nil => intro s h; simpa using h
  | cons e rest ih => intro s h; exact ih _ (offscreenStep_inv s e h)

theorem offscreenFoldl_active : ∀ (tr : List OffscreenEvent) (s : OffscreenState),
    mgrActive s → mgrActive (tr.foldl offscreenStep s) := by
  intro tr
  induction tr with
  | nil => intro s h; simpa using h
  | cons e rest ih => intro s h; exact ih _ (offscreenStep_active s e h)

theorem offscreenFoldl_ensure_calls : ∀ (tr : List OffscreenEvent) (s : OffscreenState),
    MgrInv s → OffscreenEvent.ensure ∈ tr →
    (tr.foldl offscreenStep s).creationCalls = 1 := by
  intro tr
  induction tr with
  | nil =>
    intro s _ hm
    simp at hm
  | cons e rest ih =>
    intro s hinv hm
    rcases List.mem_cons.mp hm with he | hrest
    · subst he
      have ha := offscreenFoldl_active rest _ (ensure_active s)
      have hi := offscreenFoldl_inv rest _
        (offscreenStep_inv s OffscreenEvent.ensure hinv)
      exact hi.2.mpr ha
    · exact ih _ (offscreenStep_inv s e hinv) hrest

/-- C5: across every interleaving of concurrent setupOffscreenDocument calls
with the environment, at most one platform creation call is issued, and
exactly one as soon as any call runs; completion marks the flag for good
(success and the already-exists failure are handled identically), after which
every further call is a no-op. -/
theorem C5_single_creation :
    ∀ tr : List OffscreenEvent,
      (offscreenRun tr).creationCalls ≤ 1 ∧
      (OffscreenEvent.ensure ∈ tr → (offscreenRun tr).creationCalls = 1) ∧
      (∀ s : OffscreenState, s.offscreenDocumentCreated = true →
        offscreenStep s OffscreenEvent.ensure = s) ∧
      (∀ (s : OffscreenState) (b : Bool),
        offscreenStep s (OffscreenEvent.complete b) =
          offscreenStep s (OffscreenEvent.complete true)) := by
  intro tr
  have hinv0 : MgrInv offscreenInit := by simp [MgrInv, offscreenInit]
  refine ⟨(offscreenFoldl_inv tr _ hinv0).1,
    fun hm => offscreenFoldl_ensure_calls tr _ hinv0 hm, ?_, ?_⟩
  · intro s hs
    simp [offscreenStep, hs]
  · intro s b
    rfl

/-- Witness for C5: a five-event interleaving with two concurrent calls, an
already-exists completion, the promise-slot clear and a late call issues
exactly one creation call; a call in the ready state is a no-op. -/
theorem C5_single_creation_witness :
    (offscreenRun [OffscreenEvent.ensure, OffscreenEvent.ensure,
      OffscreenEvent.complete false, OffscreenEvent.clear,
      OffscreenEvent.ensure]).creationCalls = 1 ∧
    offscreenStep ⟨true, false, 1⟩ OffscreenEvent.ensure = ⟨true, false, 1⟩ :=
  ⟨(C5_single_creation [OffscreenEvent.ensure, OffscreenEvent.ensure,
      OffscreenEvent.complete false, OffscreenEvent.clear,
      OffscreenEvent.ensure]).2.1 (by decide),
   (C5_single_creation []).2.2.1 ⟨true, false, 1⟩ rfl⟩
